import Mathlib

/-!
Verification of the FinGenie statement-extraction core
(src/modules/utils.py and src/modules/categorize_transactions.py)
against its natural-language specification.

The Python code is shallowly embedded over `List Char` / `String`:
regular-expression operations are modelled by executable scanners that
implement exactly the backtracking behaviour of the three concrete
patterns the source uses (`DATE_PATTERNS`, `AMOUNT_PAT`, `CRDR_PAT`),
`datetime.strptime` is modelled with the directive regexes CPython's
`_strptime` generates (`%d` is `3[0-1]|[1-2]\d|0[1-9]|[1-9]| [1-9]`,
`%m` is `1[0-2]|0[1-9]|[1-9]`, `%y` is exactly two digits, `%Y` exactly
four digits, `%b` the twelve case-insensitive month abbreviations, with
the whole string required to be consumed and the field values validated
against the real calendar), and `pandas.DataFrame`s are modelled as a
column-name list plus a list of rows.  All character classes are the
ASCII ones; the inputs the pipeline produces are ASCII apart from the
rupee sign, which is deleted before tokenisation.
-/

namespace FinGenie

/-! ## Character classes (ASCII, as used by `re` on these inputs) -/

def isDigitC (c : Char) : Bool := 48 ≤ c.toNat && c.toNat ≤ 57

def isUpperC (c : Char) : Bool := 65 ≤ c.toNat && c.toNat ≤ 90

def isLowerC (c : Char) : Bool := 97 ≤ c.toNat && c.toNat ≤ 122

def isAlphaC (c : Char) : Bool := isUpperC c || isLowerC c

/-- Word characters for the regex boundary assertion: `[A-Za-z0-9_]`. -/
def isWordC (c : Char) : Bool := isDigitC c || isAlphaC c || c = '_'

/-- Whitespace characters matched by Python's default `str.strip` and by
the regex class `\s` (space, tab, newline, carriage return, vertical
tab, form feed). -/
def isSpaceC (c : Char) : Bool :=
  c = ' ' || c = '\t' || c = '\n' || c = '\r' || c.toNat = 11 || c.toNat = 12

def toLowerC (c : Char) : Char :=
  if 65 ≤ c.toNat && c.toNat ≤ 90 then Char.ofNat (c.toNat + 32) else c

def digitVal (c : Char) : Nat := c.toNat - 48

/-! ## Python string helpers on `List Char` -/

def pyLower (cs : List Char) : List Char := cs.map toLowerC

def rstripBy (p : Char → Bool) (cs : List Char) : List Char :=
  (cs.reverse.dropWhile p).reverse

def stripBy (p : Char → Bool) (cs : List Char) : List Char :=
  rstripBy p (cs.dropWhile p)

/-- Python `str.strip()` (default whitespace). -/
def pyStrip (cs : List Char) : List Char := stripBy isSpaceC cs

/-- Python `str.rstrip()`. -/
def pyRstrip (cs : List Char) : List Char := rstripBy isSpaceC cs

/-- Characters stripped by the source's `strip(" -:|")` calls. -/
def isSepStripC (c : Char) : Bool := c = ' ' || c = '-' || c = ':' || c = '|'

/-- Python `str.strip(" -:|")`. -/
def stripSeps (cs : List Char) : List Char := stripBy isSepStripC cs

def startsWithL : List Char → List Char → Bool
  | _, [] => true
  | [], _ :: _ => false
  | c :: cs, n :: ns => c = n && startsWithL cs ns

/-- Python substring containment `needle in haystack`. -/
def containsSub : List Char → List Char → Bool
  | [], n => n.isEmpty
  | c :: cs, n => startsWithL (c :: cs) n || containsSub cs n

/-- Suffix strictly after the first occurrence of `pat` (for sequencing
the literals of a `lit1.*lit2` regex). -/
def findAfter : List Char → List Char → Option (List Char)
  | [], pat => if pat.isEmpty then some [] else none
  | c :: cs, pat =>
    if startsWithL (c :: cs) pat then some ((c :: cs).drop pat.length)
    else findAfter cs pat

/-- Python `str.replace(pat, "")` for a non-empty `pat`, removing
non-overlapping occurrences left to right (fuel-structured so that it
reduces in the kernel; the initial fuel is the list length, which the
scan never exceeds). -/
def removeSubF : Nat → List Char → List Char → List Char
  | 0, _, cs => cs
  | _ + 1, _, [] => []
  | fuel + 1, pat, c :: cs =>
    if pat.isEmpty then c :: cs
    else if startsWithL (c :: cs) pat then removeSubF fuel pat ((c :: cs).drop pat.length)
    else c :: removeSubF fuel pat cs

def removeSub (pat cs : List Char) : List Char := removeSubF cs.length pat cs

/-- The source's `.replace("₹", "").replace("INR", "")` preprocessing
(single-character replacement is a filter). -/
def replaceMoney (cs : List Char) : List Char :=
  removeSub "INR".toList (cs.filter (fun c => !(c = '₹')))

def splitOnNlAux : List Char → List Char → List (List Char)
  | [], acc => [acc.reverse]
  | '\n' :: cs, acc => acc.reverse :: splitOnNlAux cs []
  | c :: cs, acc => splitOnNlAux cs (c :: acc)

/-- Python `str.splitlines()` restricted to `\n` terminators (the only
separator the extraction stage produces): interior empty lines are
kept, a final terminator produces no trailing empty line. -/
def splitlinesPy (cs : List Char) : List (List Char) :=
  match cs with
  | [] => []
  | _ =>
    let parts := splitOnNlAux cs []
    if cs.getLast? = some '\n' then parts.dropLast else parts

def joinSp (ls : List (List Char)) : List Char := List.intercalate [' '] ls

def joinNl (ls : List (List Char)) : List Char := List.intercalate ['\n'] ls

/-! ## The numeric tokeniser: `re.findall(AMOUNT_PAT, s)`

`AMOUNT_PAT = ([+-]?\d{1,3}(?:,\d{3})*(?:\.\d{1,2})?|[+-]?\d+(?:\.\d{1,2})?)`.

In `findall` there is no continuation after the group, so the first
alternative succeeds at every position where a (possibly signed) digit
is found and the second alternative is unreachable; each quantifier is
greedy and never needs to backtrack.  The scanner below implements
exactly that: up to three digits, then `,ddd` groups, then an optional
fraction of one or two digits. -/

/-- Greedily take at most `n` leading digits. -/
def takeDigitsUpTo : Nat → List Char → List Char × List Char
  | 0, cs => ([], cs)
  | _ + 1, [] => ([], [])
  | n + 1, c :: cs =>
    if isDigitC c then
      let p := takeDigitsUpTo n cs
      (c :: p.1, p.2)
    else ([], c :: cs)

/-- Greedily take `(?:,\d{3})*`. -/
def takeCommaGroups : List Char → List Char × List Char
  | ',' :: c1 :: c2 :: c3 :: rest =>
    if isDigitC c1 && isDigitC c2 && isDigitC c3 then
      let p := takeCommaGroups rest
      (',' :: c1 :: c2 :: c3 :: p.1, p.2)
    else ([], ',' :: c1 :: c2 :: c3 :: rest)
  | cs => ([], cs)

/-- Greedily take `(?:\.\d{1,2})?`. -/
def takeFrac : List Char → List Char × List Char
  | '.' :: c1 :: c2 :: rest2 =>
    if isDigitC c1 then
      if isDigitC c2 then (['.', c1, c2], rest2) else (['.', c1], c2 :: rest2)
    else ([], '.' :: c1 :: c2 :: rest2)
  | '.' :: c1 :: [] =>
    if isDigitC c1 then (['.', c1], []) else ([], ['.', c1])
  | cs => ([], cs)

/-- One unsigned match of the first alternative of `AMOUNT_PAT`. -/
def matchAmountCore (cs : List Char) : Option (List Char × List Char) :=
  let p1 := takeDigitsUpTo 3 cs
  if p1.1.isEmpty then none
  else
    let p2 := takeCommaGroups p1.2
    let p3 := takeFrac p2.2
    some (p1.1 ++ p2.1 ++ p3.1, p3.2)

/-- One match of `AMOUNT_PAT` anchored at the current position. -/
def matchAmountAt : List Char → Option (List Char × List Char)
  | [] => none
  | c :: cs =>
    if c = '+' || c = '-' then
      match matchAmountCore cs with
      | some (tok, rest) => some (c :: tok, rest)
      | none => none
    else matchAmountCore (c :: cs)

def findAllAmountsF : Nat → List Char → List (List Char)
  | 0, _ => []
  | _ + 1, [] => []
  | fuel + 1, c :: cs =>
    match matchAmountAt (c :: cs) with
    | some (tok, rest) => tok :: findAllAmountsF fuel rest
    | none => findAllAmountsF fuel cs

/-- `re.findall(AMOUNT_PAT, s)`: non-overlapping leftmost matches. -/
def findAllAmounts (cs : List Char) : List (List Char) :=
  findAllAmountsF cs.length cs

/-! ## `float()` on the tokens the scanner can produce -/

def digitsToNat (ds : List Char) : Nat :=
  ds.foldl (fun a c => 10 * a + digitVal c) 0

/-- Python `float(s)` restricted to the decimal sublanguage
`[+-]? \d* (\. \d*)?` with at least one digit, which covers every
token of `AMOUNT_PAT` after comma removal (no exponents, infinities,
or underscores can occur there).  Returns `none` where `float` raises
`ValueError` on that sublanguage. -/
def pyFloatCore (cs : List Char) : Option ℚ :=
  let ds := cs.takeWhile isDigitC
  let rest := cs.dropWhile isDigitC
  match rest with
  | [] => if ds.isEmpty then none else some (digitsToNat ds)
  | '.' :: fs =>
    if fs.all isDigitC && !(ds.isEmpty && fs.isEmpty) then
      some ((digitsToNat ds * 10 ^ fs.length + digitsToNat fs : ℚ) / (10 ^ fs.length : ℚ))
    else none
  | _ => none

def pyFloat : List Char → Option ℚ
  | [] => pyFloatCore []
  | c :: rest =>
    if c = '+' then pyFloatCore rest
    else if c = '-' then (pyFloatCore rest).map Neg.neg
    else pyFloatCore (c :: rest)

/-- The source's `float(tok.replace(",", ""))` step. -/
def floatOfToken (tok : List Char) : Option ℚ :=
  pyFloat (tok.filter (fun c => !(c = ',')))

/-! ## Date patterns

```
DATE_PATTERNS = [
    r"\b\d{1,2}[/ -]\d{1,2}[/ -]\d{2,4}\b",
    r"\b\d{1,2}-[A-Za-z]{3}-\d{2,4}\b",
    r"\b[A-Za-z]{3}\s+\d{1,2},\s*\d{4}\b",
]
```

`re.search`/`re.sub` try the three alternatives in order at each
position, left to right.  A `\b` before a word character holds exactly
when the preceding character (threaded through the scan as `prev`) is
absent or not a word character; a trailing `\b` after a word character
holds when the rest is empty or starts with a non-word character.
Greedy counted repetitions backtrack, which `tryDigitLens` realises by
trying the candidate widths longest first. -/

/-- Exactly `n` leading digits. -/
def takeExactDigits : Nat → List Char → Option (List Char × List Char)
  | 0, cs => some ([], cs)
  | _ + 1, [] => none
  | n + 1, c :: cs =>
    if isDigitC c then
      match takeExactDigits n cs with
      | some (ds, rest) => some (c :: ds, rest)
      | none => none
    else none

/-- Backtracking over the widths of a counted digit repetition. -/
def tryDigitLens (lens : List Nat) (cs : List Char)
    (k : List Char → List Char → Option (List Char × List Char)) :
    Option (List Char × List Char) :=
  match lens with
  | [] => none
  | n :: ns =>
    match takeExactDigits n cs with
    | some (ds, rest) =>
      match k ds rest with
      | some r => some r
      | none => tryDigitLens ns cs k
    | none => tryDigitLens ns cs k

def prevBoundary (prev : Option Char) : Bool :=
  match prev with
  | none => true
  | some c => !(isWordC c)

def boundaryAfter (cs : List Char) : Bool :=
  match cs with
  | [] => true
  | c :: _ => !(isWordC c)

def isDateSepC (c : Char) : Bool := c = '/' || c = '-'

/-- First alternative `\b\d{1,2}[/ -]\d{1,2}[/ -]\d{2,4}\b`, anchored. -/
def tryDate1 (prev : Option Char) (cs : List Char) : Option (List Char × List Char) :=
  if prevBoundary prev then
    tryDigitLens [2, 1] cs fun d1 r1 =>
      match r1 with
      | s1 :: r2 =>
        if isDateSepC s1 then
          tryDigitLens [2, 1] r2 fun d2 r3 =>
            match r3 with
            | s2 :: r4 =>
              if isDateSepC s2 then
                tryDigitLens [4, 3, 2] r4 fun d3 r5 =>
                  if boundaryAfter r5 then
                    some (d1 ++ s1 :: (d2 ++ s2 :: d3), r5)
                  else none
              else none
            | [] => none
        else none
      | [] => none
  else none

def takeExactAlpha : Nat → List Char → Option (List Char × List Char)
  | 0, cs => some ([], cs)
  | _ + 1, [] => none
  | n + 1, c :: cs =>
    if isAlphaC c then
      match takeExactAlpha n cs with
      | some (ds, rest) => some (c :: ds, rest)
      | none => none
    else none

/-- Second alternative `\b\d{1,2}-[A-Za-z]{3}-\d{2,4}\b`, anchored. -/
def tryDate2 (prev : Option Char) (cs : List Char) : Option (List Char × List Char) :=
  if prevBoundary prev then
    tryDigitLens [2, 1] cs fun d1 r1 =>
      match r1 with
      | '-' :: r2 =>
        match takeExactAlpha 3 r2 with
        | some (al, r3) =>
          match r3 with
          | '-' :: r4 =>
            tryDigitLens [4, 3, 2] r4 fun d3 r5 =>
              if boundaryAfter r5 then
                some (d1 ++ '-' :: (al ++ '-' :: d3), r5)
              else none
          | _ => none
        | none => none
      | _ => none
  else none

/-- Third alternative `\b[A-Za-z]{3}\s+\d{1,2},\s*\d{4}\b`, anchored.
The whitespace runs border character classes disjoint from them, so
their greedy maximal take never needs to backtrack. -/
def tryDate3 (prev : Option Char) (cs : List Char) : Option (List Char × List Char) :=
  if prevBoundary prev then
    match takeExactAlpha 3 cs with
    | some (al, r1) =>
      let sp1 := r1.takeWhile isSpaceC
      let r2 := r1.dropWhile isSpaceC
      if sp1.isEmpty then none
      else
        tryDigitLens [2, 1] r2 fun d1 r3 =>
          match r3 with
          | ',' :: r4 =>
            let sp2 := r4.takeWhile isSpaceC
            let r5 := r4.dropWhile isSpaceC
            match takeExactDigits 4 r5 with
            | some (d4, r6) =>
              if boundaryAfter r6 then
                some (al ++ sp1 ++ (d1 ++ ',' :: (sp2 ++ d4)), r6)
              else none
            | none => none
          | _ => none
    | none => none
  else none

/-- The union of the three date alternatives, tried in order. -/
def tryDateAny (prev : Option Char) (cs : List Char) : Option (List Char × List Char) :=
  match tryDate1 prev cs with
  | some r => some r
  | none =>
    match tryDate2 prev cs with
    | some r => some r
    | none => tryDate3 prev cs

/-- `re.search(date_union, s)`: the first (leftmost) date match. -/
def dateSearchF : Nat → Option Char → List Char → Option (List Char)
  | 0, _, _ => none
  | _ + 1, _, [] => none
  | fuel + 1, prev, c :: cs =>
    match tryDateAny prev (c :: cs) with
    | some (tok, _) => some tok
    | none => dateSearchF fuel (some c) cs

def dateSearch (cs : List Char) : Option (List Char) :=
  dateSearchF cs.length none cs

/-- `re.sub(date_union, "", s)`: delete every non-overlapping date
match, scanning left to right; the boundary context after a deletion is
the last character of the deleted match. -/
def dateSubAllF : Nat → Option Char → List Char → List Char
  | 0, _, cs => cs
  | _ + 1, _, [] => []
  | fuel + 1, prev, c :: cs =>
    match tryDateAny prev (c :: cs) with
    | some (tok, rest) => dateSubAllF fuel (tok.getLast? <|> prev) rest
    | none => c :: dateSubAllF fuel (some c) cs

def dateSubAll (cs : List Char) : List Char :=
  dateSubAllF cs.length none cs

/-- `date_head = re.compile(rf"^\s*({union})")` tested with `.search`:
anchored at the string start, optional whitespace, then a date
alternative.  Fewer-than-maximal whitespace takes would put a space
where the pattern requires a digit or letter, so the maximal take is
exact. -/
def dateHeadTest (ln : List Char) : Bool :=
  let rest := ln.dropWhile isSpaceC
  let prev : Option Char := if rest.length = ln.length then none else some ' '
  (tryDateAny prev rest).isSome

/-! ## `CRDR_PAT` and the keyword searches -/

/-- Match one case-sensitive word with `\b` on both sides. -/
def tryWordAt (w : List Char) (prev : Option Char) (cs : List Char) :
    Option (List Char × List Char) :=
  if prevBoundary prev && startsWithL cs w && boundaryAfter (cs.drop w.length) then
    some (w, cs.drop w.length)
  else none

/-- First alternative among `ws` matching at the current position. -/
def tryWordsAt (ws : List (List Char)) (prev : Option Char) (cs : List Char) :
    Option (List Char × List Char) :=
  match ws with
  | [] => none
  | w :: rest =>
    match tryWordAt w prev cs with
    | some r => some r
    | none => tryWordsAt rest prev cs

/-- Leftmost match of an ordered word alternation, returning the
matched token (`m.group(0)`). -/
def wordSearchF (ws : List (List Char)) : Nat → Option Char → List Char → Option (List Char)
  | 0, _, _ => none
  | _ + 1, _, [] => none
  | fuel + 1, prev, c :: cs =>
    match tryWordsAt ws prev (c :: cs) with
    | some (tok, _) => some tok
    | none => wordSearchF ws fuel (some c) cs

def wordSearch (ws : List (List Char)) (cs : List Char) : Option (List Char) :=
  wordSearchF ws cs.length none cs

/-- `CRDR_PAT = \b(CR|CREDIT|Cr|Credit|DR|DEBIT|Dr|Debit)\b`. -/
def crdrWords : List (List Char) :=
  ["CR".toList, "CREDIT".toList, "Cr".toList, "Credit".toList,
   "DR".toList, "DEBIT".toList, "Dr".toList, "Debit".toList]

def crdrSearch (cs : List Char) : Option (List Char) := wordSearch crdrWords cs

/-- `re.search(r"\bcr\b|\bcredit\b|\bdeposit\b", low)` as an existence
test (the lowered haystack makes order irrelevant for existence). -/
def hasCreditKw (low : List Char) : Bool :=
  (wordSearch ["cr".toList] low).isSome || (wordSearch ["credit".toList] low).isSome ||
    (wordSearch ["deposit".toList] low).isSome

/-- Match a word with a leading `\b` only (for `\bwithdraw`). -/
def openWordSearchF (w : List Char) : Nat → Option Char → List Char → Bool
  | 0, _, _ => false
  | _ + 1, _, [] => false
  | fuel + 1, prev, c :: cs =>
    (prevBoundary prev && startsWithL (c :: cs) w) ||
      openWordSearchF w fuel (some c) cs

/-- `re.search(r"\bdr\b|\bdebit\b|\bwithdraw", low)` as an existence
test. -/
def hasDebitKw (low : List Char) : Bool :=
  (wordSearch ["dr".toList] low).isSome || (wordSearch ["debit".toList] low).isSome ||
    openWordSearchF "withdraw".toList low.length none low

/-! ## The `$`-anchored trailing-amount deletions

Generic parser: `re.sub(rf"{AMOUNT_PAT}\s*(Cr|Dr)?$", "", desc, re.IGNORECASE)`.
Kotak parser: `re.sub(rf"{AMOUNT_PAT}\s*(Cr|DR|CR|Dr)?\s*$", "", narration, re.IGNORECASE)`.
Both marker alternations are the case-insensitive two-letter words
`cr` and `dr`.  Because of the `$` anchor the engine backtracks into
every split, so membership of the token part in the full `AMOUNT_PAT`
language (either alternative) is what decides a match; the match, when
it exists at leftmost position `i`, always extends to the end of the
string, and the substitution deletes exactly the suffix from `i`. -/

/-- Full-string membership in the first alternative
`[+-]?\d{1,3}(?:,\d{3})*(?:\.\d{1,2})?`. -/
def isAmountAlt1Body (cs : List Char) : Bool :=
  let ds := cs.takeWhile isDigitC
  let rest := cs.dropWhile isDigitC
  if ds.isEmpty || 3 < ds.length then false
  else isAmountGroups rest
where
  /-- After the leading digits: comma groups then an optional fraction.
  Each group is exactly four characters, so the greedy reading is the
  only reading. -/
  isAmountGroups : List Char → Bool
    | [] => true
    | ',' :: c1 :: c2 :: c3 :: rest =>
      isDigitC c1 && isDigitC c2 && isDigitC c3 && isAmountGroups rest
    | '.' :: c1 :: [] => isDigitC c1
    | '.' :: c1 :: c2 :: [] => isDigitC c1 && isDigitC c2
    | _ => false

/-- Full-string membership in the second alternative
`[+-]?\d+(?:\.\d{1,2})?`. -/
def isAmountAlt2Body (cs : List Char) : Bool :=
  let ds := cs.takeWhile isDigitC
  let rest := cs.dropWhile isDigitC
  if ds.isEmpty then false
  else
    match rest with
    | [] => true
    | '.' :: c1 :: [] => isDigitC c1
    | '.' :: c1 :: c2 :: [] => isDigitC c1 && isDigitC c2
    | _ => false

/-- Full-string membership in `AMOUNT_PAT`. -/
def isAmountToken (cs : List Char) : Bool :=
  match cs with
  | '+' :: rest => isAmountAlt1Body rest || isAmountAlt2Body rest
  | '-' :: rest => isAmountAlt1Body rest || isAmountAlt2Body rest
  | _ => isAmountAlt1Body cs || isAmountAlt2Body cs

/-- Case-insensitive `cr` or `dr`. -/
def isCrDrPair (c1 c2 : Char) : Bool :=
  (toLowerC c1 = 'c' || toLowerC c1 = 'd') && toLowerC c2 = 'r'

/-- `\s*(Cr|Dr)?$` (generic tail). -/
def tailAfterAmountGeneric (cs : List Char) : Bool :=
  let r := cs.dropWhile isSpaceC
  match r with
  | [] => true
  | [c1, c2] => isCrDrPair c1 c2
  | _ => false

/-- `\s*(Cr|DR|CR|Dr)?\s*$` (kotak tail). -/
def tailAfterAmountKotak (cs : List Char) : Bool :=
  let r := cs.dropWhile isSpaceC
  match r with
  | [] => true
  | c1 :: c2 :: rest => isCrDrPair c1 c2 && (rest.dropWhile isSpaceC).isEmpty
  | _ => false

/-- Does the `$`-anchored pattern match starting exactly here? -/
def tailMatchesAt (tailOk : List Char → Bool) (cs : List Char) : Bool :=
  (List.range (cs.length + 1)).any fun j =>
    isAmountToken (cs.take j) && tailOk (cs.drop j)

/-- `re.sub` of the `$`-anchored pattern: delete from the leftmost
position where the pattern matches through to the end. -/
def stripTrailingAmount (tailOk : List Char → Bool) (cs : List Char) : List Char :=
  match (List.range (cs.length + 1)).find? (fun i => tailMatchesAt tailOk (cs.drop i)) with
  | some i => cs.take i
  | none => cs

def stripTrailingAmountGeneric (cs : List Char) : List Char :=
  stripTrailingAmount tailAfterAmountGeneric cs

def stripTrailingAmountKotak (cs : List Char) : List Char :=
  stripTrailingAmount tailAfterAmountKotak cs

/-! ## `safe_date`: `datetime.strptime` over the source's format list

CPython's `_strptime` compiles each format into a regex (matched
case-insensitively against the whole string): `%d` becomes
`3[0-1]|[1-2]\d|0[1-9]|[1-9]| [1-9]`, `%m` becomes `1[0-2]|0[1-9]|[1-9]`,
`%y` exactly two digits (values 0-68 map to 2000+, 69-99 to 1900+),
`%Y` exactly four digits, `%b` one of the twelve month abbreviations,
and a literal space one-or-more whitespace.  The matched values are
then validated by the `datetime` constructor against the real calendar
(with `1 <= year <= 9999`).  Alternatives backtrack in order. -/

structure DateT where
  year : Nat
  month : Nat
  day : Nat
deriving DecidableEq, Repr

/-- Result of `safe_date`: a date, or the original string unparsed. -/
inductive DateOrStr where
  | date (d : DateT) : DateOrStr
  | str (s : String) : DateOrStr
deriving DecidableEq, Repr

def isLeapY (y : Nat) : Bool := y % 4 == 0 && (!(y % 100 == 0) || y % 400 == 0)

def daysInMonth (y m : Nat) : Nat :=
  if m = 2 then (if isLeapY y then 29 else 28)
  else if m = 4 ∨ m = 6 ∨ m = 9 ∨ m = 11 then 30 else 31

/-- The `datetime(year, month, day)` constructor's validation. -/
def mkDate (y m d : Nat) : Option DateT :=
  if 1 ≤ y ∧ y ≤ 9999 ∧ 1 ≤ m ∧ m ≤ 12 ∧ 1 ≤ d ∧ d ≤ daysInMonth y m then
    some ⟨y, m, d⟩
  else none

/-- The `%d` alternatives in regex order, as (value, rest) candidates. -/
def dayAlts (cs : List Char) : List (Nat × List Char) :=
  (match cs with
   | '3' :: c :: rest => if c = '0' || c = '1' then [(30 + digitVal c, rest)] else []
   | _ => []) ++
  (match cs with
   | c1 :: c2 :: rest =>
     if (c1 = '1' || c1 = '2') && isDigitC c2 then [(10 * digitVal c1 + digitVal c2, rest)]
     else []
   | _ => []) ++
  (match cs with
   | '0' :: c :: rest => if isDigitC c && !(c = '0') then [(digitVal c, rest)] else []
   | _ => []) ++
  (match cs with
   | c :: rest => if isDigitC c && !(c = '0') then [(digitVal c, rest)] else []
   | _ => []) ++
  (match cs with
   | ' ' :: c :: rest => if isDigitC c && !(c = '0') then [(digitVal c, rest)] else []
   | _ => [])

/-- The `%m` alternatives in regex order. -/
def monthAlts (cs : List Char) : List (Nat × List Char) :=
  (match cs with
   | '1' :: c :: rest => if c = '0' || c = '1' || c = '2' then [(10 + digitVal c, rest)] else []
   | _ => []) ++
  (match cs with
   | '0' :: c :: rest => if isDigitC c && !(c = '0') then [(digitVal c, rest)] else []
   | _ => []) ++
  (match cs with
   | c :: rest => if isDigitC c && !(c = '0') then [(digitVal c, rest)] else []
   | _ => [])

/-- Backtracking over field-alternative candidates. -/
def runAlts (cands : List (Nat × List Char)) (k : Nat → List Char → Option DateT) :
    Option DateT :=
  match cands with
  | [] => none
  | (v, rest) :: more =>
    match k v rest with
    | some r => some r
    | none => runAlts more k

/-- `%y`: exactly two digits, century pivot at 68. -/
def parseY2v (cs : List Char) : Option (Nat × List Char) :=
  match takeExactDigits 2 cs with
  | some (ds, rest) =>
    let v := digitsToNat ds
    some ((if v ≤ 68 then 2000 + v else 1900 + v), rest)
  | none => none

/-- `%Y`: exactly four digits. -/
def parseY4v (cs : List Char) : Option (Nat × List Char) :=
  match takeExactDigits 4 cs with
  | some (ds, rest) => some (digitsToNat ds, rest)
  | none => none

def monthAbbrs : List (List Char) :=
  ["jan", "feb", "mar", "apr", "may", "jun",
   "jul", "aug", "sep", "oct", "nov", "dec"].map String.toList

/-- `%b`: a case-insensitive three-letter month abbreviation. -/
def parseMonAbbr (cs : List Char) : Option (Nat × List Char) :=
  match monthAbbrs.findIdx? (fun a => a == pyLower (cs.take 3)) with
  | some i => some (i + 1, cs.drop 3)
  | none => none

/-- Formats `"%d/%m/%Y"` and `"%d-%m-%Y"`. -/
def fmt_dmY (sep : Char) (cs : List Char) : Option DateT :=
  runAlts (dayAlts cs) fun d r1 =>
    match r1 with
    | c1 :: r2 =>
      if c1 = sep then
        runAlts (monthAlts r2) fun m r3 =>
          match r3 with
          | c2 :: r4 =>
            if c2 = sep then
              match parseY4v r4 with
              | some (y, r5) => if r5.isEmpty then mkDate y m d else none
              | none => none
            else none
          | [] => none
      else none
    | [] => none

/-- Formats `"%d/%m/%y"` and `"%d-%m-%y"`. -/
def fmt_dmy2 (sep : Char) (cs : List Char) : Option DateT :=
  runAlts (dayAlts cs) fun d r1 =>
    match r1 with
    | c1 :: r2 =>
      if c1 = sep then
        runAlts (monthAlts r2) fun m r3 =>
          match r3 with
          | c2 :: r4 =>
            if c2 = sep then
              match parseY2v r4 with
              | some (y, r5) => if r5.isEmpty then mkDate y m d else none
              | none => none
            else none
          | [] => none
      else none
    | [] => none

/-- Formats `"%m/%d/%Y"` and `"%m-%d-%Y"`. -/
def fmt_mdY (sep : Char) (cs : List Char) : Option DateT :=
  runAlts (monthAlts cs) fun m r1 =>
    match r1 with
    | c1 :: r2 =>
      if c1 = sep then
        runAlts (dayAlts r2) fun d r3 =>
          match r3 with
          | c2 :: r4 =>
            if c2 = sep then
              match parseY4v r4 with
              | some (y, r5) => if r5.isEmpty then mkDate y m d else none
              | none => none
            else none
          | [] => none
      else none
    | [] => none

/-- Formats `"%d-%b-%y"` and `"%d-%b-%Y"`. -/
def fmt_dby (y4 : Bool) (cs : List Char) : Option DateT :=
  runAlts (dayAlts cs) fun d r1 =>
    match r1 with
    | '-' :: r2 =>
      match parseMonAbbr r2 with
      | some (m, r3) =>
        match r3 with
        | '-' :: r4 =>
          match (if y4 then parseY4v r4 else parseY2v r4) with
          | some (y, r5) => if r5.isEmpty then mkDate y m d else none
          | none => none
        | _ => none
      | none => none
    | _ => none

/-- Format `"%b %d, %Y"` (a literal space matches `\s+`). -/
def fmt_bdY (cs : List Char) : Option DateT :=
  match parseMonAbbr cs with
  | some (m, r1) =>
    if (r1.takeWhile isSpaceC).isEmpty then none
    else
      runAlts (dayAlts (r1.dropWhile isSpaceC)) fun d r3 =>
        match r3 with
        | ',' :: r4 =>
          if (r4.takeWhile isSpaceC).isEmpty then none
          else
            match parseY4v (r4.dropWhile isSpaceC) with
            | some (y, r6) => if r6.isEmpty then mkDate y m d else none
            | none => none
        | _ => none
  | none => none

/-- The source's format list, in order. -/
def strptimeFmts : List (List Char → Option DateT) :=
  [fmt_dmY '/', fmt_dmY '-', fmt_dmy2 '/', fmt_dmy2 '-',
   fmt_mdY '/', fmt_mdY '-', fmt_dby false, fmt_dby true, fmt_bdY]

def firstParse : List (List Char → Option DateT) → List Char → Option DateT
  | [], _ => none
  | p :: ps, cs =>
    match p cs with
    | some d => some d
    | none => firstParse ps cs

/-- `safe_date(s)`: try each format in order; fall back to the original
string. -/
def safe_date (s : String) : DateOrStr :=
  match firstParse strptimeFmts s.toList with
  | some dt => DateOrStr.date dt
  | none => DateOrStr.str s

/-! ## `strftime` rendering for the round-trip claim -/

def dChar (n : Nat) : Char :=
  match n with
  | 0 => '0' | 1 => '1' | 2 => '2' | 3 => '3' | 4 => '4'
  | 5 => '5' | 6 => '6' | 7 => '7' | 8 => '8' | _ => '9'

/-- Zero-padded two-digit field (`%d`, `%m`). -/
def pad2 (n : Nat) : List Char := [dChar (n / 10 % 10), dChar (n % 10)]

/-- Four-digit year (`%Y` for 1000-9999). -/
def pad4 (n : Nat) : List Char :=
  [dChar (n / 1000 % 10), dChar (n / 100 % 10), dChar (n / 10 % 10), dChar (n % 10)]

/-- `strftime("%d/%m/%Y")`. -/
def renderDMY (dt : DateT) : String :=
  (pad2 dt.day ++ '/' :: (pad2 dt.month ++ '/' :: pad4 dt.year)).asString

/-- `strftime("%m/%d/%Y")`. -/
def renderMDY (dt : DateT) : String :=
  (pad2 dt.month ++ '/' :: (pad2 dt.day ++ '/' :: pad4 dt.year)).asString

/-! ## Data model: transactions and frames -/

/-- One parsed transaction row, with the column values the source
stores (`Type` is the literal string, `Amount` the absolute value). -/
structure Row where
  Date : DateOrStr
  Description : String
  Amount : ℚ
  Typ : String  -- the "Type" column; Type is a Lean keyword
deriving DecidableEq, Repr

/-- A `pandas.DataFrame` as the pipeline uses it: ordered column names
plus rows. -/
structure Frame where
  columns : List String
  rows : List Row
deriving DecidableEq, Repr

def stdCols : List String := ["Date", "Description", "Amount", "Type"]

def emptyFrame : Frame := ⟨stdCols, []⟩

/-! ## `detect_bank` -/

def detect_bank (text : String) : String :=
  let t := pyLower text.toList
  if containsSub t "kotak mahindra bank".toList ||
      (containsSub t "withdrawal amt".toList && containsSub t "deposit amt".toList &&
        containsSub t "balance".toList) then
    "kotak"
  else "generic"

/-! ## `parse_text_generic` -/

/-- The body of the per-line loop of `parse_text_generic`; `none` when
the line is skipped (`continue`). -/
def parse_generic_line (ln : List Char) : Option Row :=
  match dateSearch ln with
  | none => none
  | some date_str =>
    let marker := crdrSearch ln
    let nums := findAllAmounts (replaceMoney ln)
    match nums.getLast? with
    | none => none
    | some lastTok =>
      match floatOfToken lastTok with
      | none => none
      | some amount =>
        let desc := stripSeps (stripTrailingAmountGeneric (pyStrip (dateSubAll ln)))
        let isCr :=
          (match marker with
           | some tok => startsWithL (pyLower tok) "cr".toList
           | none => false) || containsSub (pyLower ln) " credit".toList
        some { Date := safe_date date_str.asString,
               Description := (if desc.isEmpty then "—".toList else desc).asString,
               Amount := |amount|,
               Typ := if isCr then "Credit" else "Debit" }

def parse_text_generic (text : String) : Frame :=
  let lines := (splitlinesPy text.toList).filterMap fun ln =>
    let t := pyStrip ln
    if t.isEmpty then none else some t
  ⟨stdCols, lines.filterMap parse_generic_line⟩

/-! ## `parse_kotak_statement` -/

/-- Block building: a line matching `date_head` flushes the current
block (when non-empty) and always joins the new block. -/
def kotakBlocksAux : List (List Char) → List (List Char) → List (List Char)
  | [], cur => if cur.isEmpty then [] else [joinNl cur.reverse]
  | ln :: rest, cur =>
    if dateHeadTest ln then
      if cur.isEmpty then kotakBlocksAux rest [ln]
      else joinNl cur.reverse :: kotakBlocksAux rest [ln]
    else kotakBlocksAux rest (ln :: cur)

def kotakBlocks (text : String) : List (List Char) :=
  kotakBlocksAux ((splitlinesPy text.toList).map pyRstrip) []

/-- The `for tok in reversed(tail)` loop: first parseable value with
`abs(v) > 0`, unparseable candidates skipped. -/
def codeFirstNonzero : List (List Char) → Option ℚ
  | [] => none
  | tok :: rest =>
    match floatOfToken tok with
    | some v => if 0 < |v| then some v else codeFirstNonzero rest
    | none => codeFirstNonzero rest

/-- Line 192: the block joined into one string. -/
def kotakOne (blk : List Char) : List Char :=
  joinSp ((splitlinesPy blk).map pyStrip)

/-- Lines 193-194: the numeric tokens of a block. -/
def kotakNums (blk : List Char) : List (List Char) :=
  (findAllAmounts (replaceMoney (kotakOne blk))).filter fun n => !(pyStrip n).isEmpty

/-- The body of the per-block loop of `parse_kotak_statement`. -/
def parse_kotak_block (blk : List Char) : Option Row :=
  match dateSearch blk with
  | none => none
  | some date_str =>
    let one := kotakOne blk
    let nums := kotakNums blk
    match nums.getLast? with
    | none => none
    | some bal =>
      let txn : Option ℚ :=
        match codeFirstNonzero nums.dropLast.reverse with
        | some v => some v
        | none => floatOfToken bal
      match txn with
      | none => none
      | some amt =>
        let narr := stripSeps (stripTrailingAmountKotak (pyStrip (dateSubAll one)))
        let low := pyLower one
        let t0 := if hasCreditKw low then "Credit" else "Debit"
        some { Date := safe_date date_str.asString,
               Description := (if narr.isEmpty then "—".toList else narr).asString,
               Amount := |amt|,
               Typ := if hasDebitKw low then "Debit" else t0 }

def parse_kotak_statement (text : String) : Frame :=
  ⟨stdCols, (kotakBlocks text).filterMap parse_kotak_block⟩

/-! ## `process_pdf_to_df` -/

structure Diag where
  engine : String
  pages : Nat
  note : String
deriving DecidableEq, Repr

/-- Lines 49-53 of utils.py: format detection then parsing. -/
def pipelineOnText (text : String) : Frame :=
  if detect_bank text = "kotak" then parse_kotak_statement text
  else parse_text_generic text

/-- `process_pdf_to_df` after the extraction call, which is passed in
as `ext` (text and diagnostics).  The second component of the result is
the value of the function-local `password` binding at the moment of
return: the source rebinds it to `None` only on the non-empty-text
path (line 56), after parsing; the early return at line 47 leaves it
untouched. -/
def process_pdf_to_df (ext : String × Diag) (password : Option String) :
    (Frame × String × Diag) × Option String :=
  if (pyStrip ext.1.toList).isEmpty then ((emptyFrame, ext.1, ext.2), password)
  else ((pipelineOnText ext.1, ext.1, ext.2), none)

/-! ## `categorize_transactions`

`CATEGORY_RULES` is an insertion-ordered dict of regex patterns.  Each
pattern is an alternation of literals, except `credit.*acme`, whose
alternative is the two literals `credit` and `acme` in sequence.  A
rule matches when `re.search` finds any alternative in the lowercased
description; for a sequence of literals this holds exactly when they
occur in order (taking the earliest occurrence of each literal is
complete).  The loop `df.loc[mask, "Category"] = cat` rewrites the
category of every matching row at every iteration. -/

/-- Does one alternative (literals separated by `.*`) occur in order? -/
def seqMatch : List Char → List (List Char) → Bool
  | _, [] => true
  | cs, w :: ws =>
    match findAfter cs w with
    | some rest => seqMatch rest ws
    | none => false

def ruleMatches (alts : List (List (List Char))) (low : List Char) : Bool :=
  alts.any fun alt => seqMatch low alt

def litAlt (s : String) : List (List Char) := [s.toList]

def CATEGORY_RULES : List (List (List (List Char)) × String) :=
  [([litAlt "salary", litAlt "income", ["credit".toList, "acme".toList],
     litAlt "refund", litAlt "parent", litAlt "fd maturity"], "Income / Credits"),
   ([litAlt "swiggy", litAlt "zomato", litAlt "restaurant", litAlt "starbucks"],
    "Food & Drinks"),
   ([litAlt "uber", litAlt "ola", litAlt "rapido", litAlt "paytm"], "Transport"),
   ([litAlt "amazon", litAlt "flipkart", litAlt "bookstore", litAlt "clothing"],
    "Shopping"),
   ([litAlt "atm", litAlt "withdraw"], "Cash Withdrawal"),
   ([litAlt "rent"], "Rent / Housing"),
   ([litAlt "tax", litAlt "electricity", litAlt "lic"], "Bills & Utilities"),
   ([litAlt "mutual fund", litAlt "sip"], "Investments"),
   ([litAlt "grocery", litAlt "grocer"], "Groceries")]

/-- Row-wise effect of the rule loop: start at "Other", each matching
rule in table order overwrites the current category. -/
def assignCategory (desc : String) : String :=
  CATEGORY_RULES.foldl
    (fun acc r => if ruleMatches r.1 (pyLower desc.toList) then r.2 else acc) "Other"

/-- A frame with the appended Category column. -/
structure CatFrame where
  columns : List String
  rows : List (Row × String)
deriving DecidableEq, Repr

def categorize_transactions (f : Frame) : CatFrame :=
  ⟨f.columns ++ ["Category"], f.rows.map fun r => (r, assignCategory r.Description)⟩

/-- The rules whose pattern matches the lowercased description. -/
def matchingRules (desc : String) : List (List (List (List Char)) × String) :=
  CATEGORY_RULES.filter fun r => ruleMatches r.1 (pyLower desc.toList)

/-- What the code computes: the LAST matching rule's category. -/
def lastMatchCategory (desc : String) : String :=
  ((matchingRules desc).getLast?.map Prod.snd).getD "Other"

/-- What the claim states: the FIRST matching rule's category. -/
def firstMatchCategory (desc : String) : String :=
  ((matchingRules desc).head?.map Prod.snd).getD "Other"

/-! ## `extract_text` control flow

The per-engine outcomes are abstracted as `Except` values (`error e`
models the stage raising an exception with message `e`, `ok (pages,
text)` the stage completing); the PyPDF2 decrypt sub-step of the OCR
stage only chooses which byte stream is rasterised and is folded into
the OCR outcome.  The third component of the result lists the engines
that actually ran, in order. -/

structure PdfEnv where
  plumber : Except String (Nat × String)
  fitzAvail : Bool
  fitz : Except String (Nat × String)
  ocrAvail : Bool
  ocr : Except String (Nat × String)
deriving Repr

def truncNote (s : String) : String := (s.toList.take 1000).asString

/-- Stage 2 (PyMuPDF): skipped when unavailable; an exception appends
to the note; success with empty text leaves the note unchanged. -/
def stage2Fitz (env : PdfEnv) (d : Diag) (ran : List String) :
    (String × Diag × List String) ⊕ (Diag × List String) :=
  if env.fitzAvail then
    match env.fitz with
    | Except.ok pt =>
      let d2 : Diag := ⟨"pymupdf", pt.1, d.note⟩
      if !(pyStrip pt.2.toList).isEmpty then
        Sum.inl (pt.2, ⟨"pymupdf", pt.1, "text extracted (PyMuPDF)"⟩, ran ++ ["pymupdf"])
      else Sum.inr (d2, ran ++ ["pymupdf"])
    | Except.error e =>
      Sum.inr (⟨d.engine, d.pages, truncNote (d.note ++ " | pymupdf error: " ++ e)⟩,
        ran ++ ["pymupdf"])
  else Sum.inr (d, ran)

/-- Lines 158-160: final diagnostics when no stage returned text. -/
def finalizeExtract (d : Diag) (ran : List String) : String × Diag × List String :=
  ("", ⟨(if d.engine = "" then "none" else d.engine), d.pages,
    (pyStrip (d.note ++ " | no text detected; check OCR dependencies or password").toList).asString⟩,
    ran)

/-- Stage 3 (OCR): gated on `force_ocr or "no text" in note.lower()`
and module availability. -/
def stage3Ocr (env : PdfEnv) (force_ocr : Bool) (d : Diag) (ran : List String) :
    String × Diag × List String :=
  if (force_ocr || containsSub (pyLower d.note.toList) "no text".toList) && env.ocrAvail then
    match env.ocr with
    | Except.ok pt =>
      if !(pyStrip pt.2.toList).isEmpty then
        (pt.2, ⟨"ocr", pt.1, "text extracted (OCR)"⟩, ran ++ ["ocr"])
      else finalizeExtract ⟨"ocr", pt.1, d.note⟩ (ran ++ ["ocr"])
    | Except.error e =>
      finalizeExtract ⟨d.engine, d.pages, truncNote (d.note ++ " | OCR error: " ++ e)⟩
        (ran ++ ["ocr"])
  else finalizeExtract d ran

def extract_text (env : PdfEnv) (force_ocr : Bool) : String × Diag × List String :=
  let step1 : (String × Diag × List String) ⊕ (Diag × List String) :=
    match env.plumber with
    | Except.ok pt =>
      if !(pyStrip pt.2.toList).isEmpty then
        Sum.inl (pt.2, ⟨"pdfplumber", pt.1, "text extracted (pdfplumber)"⟩, ["pdfplumber"])
      else Sum.inr (⟨"pdfplumber", pt.1, ""⟩, ["pdfplumber"])
    | Except.error e => Sum.inr (⟨"", 0, "pdfplumber error: " ++ e⟩, ["pdfplumber"])
  match step1 with
  | Sum.inl r => r
  | Sum.inr dr =>
    match stage2Fitz env dr.1 dr.2 with
    | Sum.inl r => r
    | Sum.inr dr2 => stage3Ocr env force_ocr dr2.1 dr2.2

/-! ## Spec-side definitions used to state the claims -/

/-- The amount-selection rule as the specification words it: the last
numeric token is the balance; among the remaining tokens, scanned right
to left, the first non-zero parseable value; when none exists, the
balance token's value. -/
def specAmountSelection (nums : List (List Char)) : Option ℚ :=
  match (nums.dropLast.reverse.filterMap floatOfToken).find? (fun v => decide (v ≠ 0)) with
  | some v => some v
  | none => nums.getLast?.bind floatOfToken

/-- The end-to-end example line of claim C1. -/
def c1line : String :=
  "02/09/2025 02/09/2025 SALARY CREDIT - ACME CORP 45000 95000 CREDIT"

/-- The row the pipeline actually produces for `c1line`. -/
def c1row : Row :=
  { Date := DateOrStr.date ⟨2025, 9, 2⟩,
    Description := "SALARY CREDIT - ACME CORP 45000 95000 CREDIT",
    Amount := 0,
    Typ := "Credit" }

/-- An engine environment where both text-layer stages open the
document fine but extract only empty text, and OCR (which would
succeed) is installed. -/
def env0 : PdfEnv :=
  { plumber := Except.ok (1, ""), fitzAvail := true, fitz := Except.ok (1, ""),
    ocrAvail := true, ocr := Except.ok (1, "OCR TEXT") }

/-- A transaction whose description matches both the first rule
(`salary`) and the second rule (`swiggy`) of `CATEGORY_RULES`. -/
def c2row : Row :=
  { Date := DateOrStr.str "01/01/2024", Description := "SALARY SWIGGY",
    Amount := 100, Typ := "Credit" }

/-- A header line containing the summary keyword "OPENING". -/
def c7line : String := "01/01/2024 OPENING BALANCE 1000"

/-! # Theorems -/

/-! ## General helper lemmas -/

theorem getLastMem {α : Type} : ∀ {l : List α} {a : α}, l.getLast? = some a → a ∈ l := by
  intro l
  induction l with
  | nil => intro a h; simp at h
  | cons b bs ih =>
    intro a h
    cases bs with
    | nil =>
      simp only [List.getLast?_singleton, Option.some.injEq] at h
      simp [h]
    | cons c cs =>
      rw [List.getLast?_cons_cons] at h
      exact List.mem_cons_of_mem b (ih h)

/-! ## Lemmas: every `AMOUNT_PAT` token parses with `float` -/

theorem takeDigitsUpTo_digits (n : Nat) :
    ∀ (cs : List Char) (c : Char), c ∈ (takeDigitsUpTo n cs).1 → isDigitC c = true := by
  induction n with
  | zero => intro cs c h; simp [takeDigitsUpTo] at h
  | succ n ih =>
    intro cs c h
    cases cs with
    | nil => simp [takeDigitsUpTo] at h
    | cons b bs =>
      simp only [takeDigitsUpTo] at h
      by_cases hb : isDigitC b = true
      · rw [if_pos hb] at h
        rcases List.mem_cons.mp h with h1 | h2
        · rw [h1]; exact hb
        · exact ih bs c h2
      · rw [if_neg hb] at h
        simp at h

theorem takeCommaGroups_elems :
    ∀ (cs : List Char) (c : Char), c ∈ (takeCommaGroups cs).1 →
      c = ',' ∨ isDigitC c = true := by
  intro cs
  induction cs using takeCommaGroups.induct with
  | case1 c1 c2 c3 rest hds ih =>
    intro c h
    rw [takeCommaGroups.eq_1, if_pos hds] at h
    simp only [Bool.and_eq_true] at hds
    simp only [List.mem_cons] at h
    rcases h with h | h | h | h | h
    · exact Or.inl h
    · exact Or.inr (h ▸ hds.1.1)
    · exact Or.inr (h ▸ hds.1.2)
    · exact Or.inr (h ▸ hds.2)
    · exact ih c h
  | case2 c1 c2 c3 rest hds =>
    intro c h
    rw [takeCommaGroups.eq_1, if_neg hds] at h
    simp at h
  | case3 cs hcs =>
    intro c h
    rw [takeCommaGroups.eq_2 cs hcs] at h
    simp at h

theorem takeFrac_shape (cs : List Char) :
    (takeFrac cs).1 = [] ∨
      ∃ ds, (takeFrac cs).1 = '.' :: ds ∧ ∀ c ∈ ds, isDigitC c = true := by
  rw [takeFrac.eq_def]
  split
  case h_1 c1 c2 rest2 =>
    by_cases h1 : isDigitC c1 = true
    · rw [if_pos h1]
      by_cases h2 : isDigitC c2 = true
      · rw [if_pos h2]
        right
        refine ⟨[c1, c2], rfl, ?_⟩
        intro c hc
        rcases List.mem_cons.mp hc with h | h
        · rw [h]; exact h1
        · simp at h; rw [h]; exact h2
      · rw [if_neg h2]
        right
        exact ⟨[c1], rfl, by intro c hc; simp at hc; rw [hc]; exact h1⟩
    · rw [if_neg h1]
      left
      rfl
  case h_2 c1 =>
    by_cases h1 : isDigitC c1 = true
    · rw [if_pos h1]
      right
      exact ⟨[c1], rfl, by intro c hc; simp at hc; rw [hc]; exact h1⟩
    · rw [if_neg h1]
      left
      rfl
  case h_3 => left; rfl

theorem takeWhile_digits_prepend (l1 l2 : List Char) (h : ∀ c ∈ l1, isDigitC c = true) :
    (l1 ++ l2).takeWhile isDigitC = l1 ++ l2.takeWhile isDigitC := by
  induction l1 with
  | nil => rfl
  | cons a l ih =>
    have ha := h a (List.mem_cons_self a l)
    simp only [List.cons_append, List.takeWhile_cons, ha, if_true]
    rw [ih fun c hc => h c (List.mem_cons_of_mem a hc)]

theorem dropWhile_digits_prepend (l1 l2 : List Char) (h : ∀ c ∈ l1, isDigitC c = true) :
    (l1 ++ l2).dropWhile isDigitC = l2.dropWhile isDigitC := by
  induction l1 with
  | nil => rfl
  | cons a l ih =>
    have ha := h a (List.mem_cons_self a l)
    simp only [List.cons_append, List.dropWhile_cons, ha, if_true]
    exact ih fun c hc => h c (List.mem_cons_of_mem a hc)

/-- `float` succeeds on `digits ++ digits ++ optional-fraction` with a
non-empty integer part. -/
theorem pyFloatCore_isSome (d1 g fr : List Char) (h1 : d1 ≠ [])
    (h2 : ∀ c ∈ d1, isDigitC c = true) (h3 : ∀ c ∈ g, isDigitC c = true)
    (h4 : fr = [] ∨ ∃ ds, fr = '.' :: ds ∧ ∀ c ∈ ds, isDigitC c = true) :
    (pyFloatCore (d1 ++ (g ++ fr))).isSome = true := by
  have hdg : ∀ c ∈ d1 ++ g, isDigitC c = true := by
    intro c hc
    rcases List.mem_append.mp hc with h | h
    · exact h2 c h
    · exact h3 c h
  have hne : (d1 ++ g).isEmpty = false := by
    cases d1 with
    | nil => exact absurd rfl h1
    | cons a l => rfl
  rw [show d1 ++ (g ++ fr) = (d1 ++ g) ++ fr from (List.append_assoc d1 g fr).symm]
  rcases h4 with rfl | ⟨ds, rfl, hds⟩
  · rw [List.append_nil]
    unfold pyFloatCore
    rw [List.takeWhile_eq_self_iff.mpr hdg, List.dropWhile_eq_nil_iff.mpr hdg]
    simp [hne]
  · unfold pyFloatCore
    rw [takeWhile_digits_prepend _ _ hdg, dropWhile_digits_prepend _ _ hdg]
    have hdot : ('.' :: ds).takeWhile isDigitC = [] := by
      simp [List.takeWhile_cons, isDigitC]
    have hdot2 : ('.' :: ds).dropWhile isDigitC = '.' :: ds := by
      simp [List.dropWhile_cons, isDigitC]
    rw [hdot, hdot2, List.append_nil]
    simp [List.all_eq_true.mpr hds, hne]

theorem digit_not_comma {c : Char} (h : isDigitC c = true) : (!(c = ',')) = true := by
  by_cases hc : c = ','
  · rw [hc] at h; exact absurd h (by decide)
  · simp [hc]

theorem digit_not_sign {c : Char} (h : isDigitC c = true) : ¬(c = '+') ∧ ¬(c = '-') := by
  constructor
  · intro hc; rw [hc] at h; exact absurd h (by decide)
  · intro hc; rw [hc] at h; exact absurd h (by decide)

/-- The comma-stripped text of a token produced by the unsigned
scanner is a non-empty digit run, more digits, and an optional
fraction — on which `float` succeeds and which starts with a digit. -/
theorem matchAmountCore_float {cs tok rest : List Char}
    (h : matchAmountCore cs = some (tok, rest)) :
    (pyFloatCore (tok.filter fun c => !(c = ','))).isSome = true ∧
      ∃ d dd, tok.filter (fun c => !(c = ',')) = d :: dd ∧ isDigitC d = true := by
  unfold matchAmountCore at h
  by_cases he : (takeDigitsUpTo 3 cs).1.isEmpty = true
  · rw [if_pos he] at h
    exact absurd h (by simp)
  · rw [if_neg he] at h
    simp only [Option.some.injEq, Prod.mk.injEq] at h
    obtain ⟨htok, _⟩ := h
    have hd1 : ∀ c ∈ (takeDigitsUpTo 3 cs).1, isDigitC c = true :=
      fun c hc => takeDigitsUpTo_digits 3 cs c hc
    have hg := takeCommaGroups_elems (takeDigitsUpTo 3 cs).2
    have hfr := takeFrac_shape (takeCommaGroups (takeDigitsUpTo 3 cs).2).2
    set d1 := (takeDigitsUpTo 3 cs).1 with hd1def
    set g := (takeCommaGroups (takeDigitsUpTo 3 cs).2).1 with hgdef
    set fr := (takeFrac (takeCommaGroups (takeDigitsUpTo 3 cs).2).2).1 with hfrdef
    have hto : tok = d1 ++ (g ++ fr) := by rw [← htok, List.append_assoc]
    have hd1ne : d1 ≠ [] := by
      intro hnil
      rw [hnil] at he
      exact he rfl
    have hfilter : tok.filter (fun c => !(c = ',')) =
        d1 ++ ((g.filter fun c => !(c = ',')) ++ fr) := by
      rw [hto, List.filter_append, List.filter_append]
      congr 1
      · exact List.filter_eq_self.mpr fun c hc => digit_not_comma (hd1 c hc)
      congr 1
      rcases hfr with hnil | ⟨ds, hds, hdig⟩
      · rw [hnil]; rfl
      · rw [hds]
        refine List.filter_eq_self.mpr ?_
        intro c hc
        rcases List.mem_cons.mp hc with h | h
        · rw [h]; decide
        · exact digit_not_comma (hdig c h)
    have hgfilter : ∀ c ∈ g.filter fun c => !(c = ','), isDigitC c = true := by
      intro c hc
      obtain ⟨hmem, hval⟩ := List.mem_filter.mp hc
      rcases hg c hmem with h | h
      · rw [h] at hval; simp at hval
      · exact h
    constructor
    · rw [hfilter]
      exact pyFloatCore_isSome d1 _ fr hd1ne hd1 hgfilter hfr
    · cases hd : d1 with
      | nil => exact absurd hd hd1ne
      | cons d dd =>
        refine ⟨d, dd ++ ((g.filter fun c => !(c = ',')) ++ fr), ?_, ?_⟩
        · rw [hfilter, hd, List.cons_append]
        · exact hd1 d (by rw [hd]; exact List.mem_cons_self d dd)

/-- `float(tok.replace(",", ""))` succeeds on every token the
`AMOUNT_PAT` scanner emits. -/
theorem matchAmountAt_float {cs tok rest : List Char}
    (h : matchAmountAt cs = some (tok, rest)) :
    (floatOfToken tok).isSome = true := by
  cases cs with
  | nil => exact absurd h (by simp [matchAmountAt])
  | cons c cs =>
    rw [matchAmountAt.eq_2] at h
    by_cases hs : (c = '+' || c = '-') = true
    · rw [if_pos hs] at h
      cases hc : matchAmountCore cs with
      | none => rw [hc] at h; exact absurd h (by simp)
      | some pr =>
        obtain ⟨tok0, rest0⟩ := pr
        rw [hc] at h
        simp only [Option.some.injEq, Prod.mk.injEq] at h
        obtain ⟨htok, _⟩ := h
        obtain ⟨hcore, d, dd, hfil, hd⟩ := matchAmountCore_float hc
        have hs2 : c = '+' ∨ c = '-' := by simpa using hs
        have hcne : (!(c = ',')) = true := by
          rcases hs2 with h | h
          · rw [h]; decide
          · rw [h]; decide
        unfold floatOfToken
        rw [← htok, List.filter_cons, if_pos hcne, pyFloat.eq_2]
        rcases hs2 with h | h
        · rw [if_pos h]
          exact hcore
        · rw [if_neg (by rw [h]; decide), if_pos h]
          simpa using hcore
    · rw [if_neg hs] at h
      obtain ⟨hcore, d, dd, hfil, hd⟩ := matchAmountCore_float h
      unfold floatOfToken
      rw [hfil, pyFloat.eq_2]
      obtain ⟨hp, hm⟩ := digit_not_sign hd
      rw [if_neg hp, if_neg hm, ← hfil]
      exact hcore

/-- Every token of `re.findall(AMOUNT_PAT, s)` parses with `float`. -/
theorem findAllAmountsF_float :
    ∀ (fuel : Nat) (cs tok : List Char), tok ∈ findAllAmountsF fuel cs →
      (floatOfToken tok).isSome = true := by
  intro fuel
  induction fuel with
  | zero => intro cs tok h; simp [findAllAmountsF] at h
  | succ fuel ih =>
    intro cs tok h
    cases cs with
    | nil => simp [findAllAmountsF] at h
    | cons c cs =>
      simp only [findAllAmountsF] at h
      cases hm : matchAmountAt (c :: cs) with
      | none => rw [hm] at h; exact ih cs tok h
      | some pr =>
        obtain ⟨t, r⟩ := pr
        rw [hm] at h
        rcases List.mem_cons.mp h with h1 | h2
        · rw [h1]; exact matchAmountAt_float hm
        · exact ih r tok h2

theorem findAllAmounts_float {cs tok : List Char} (h : tok ∈ findAllAmounts cs) :
    (floatOfToken tok).isSome = true :=
  findAllAmountsF_float cs.length cs tok h

/-! ## Lemmas: line/block parsing -/

/-- A line with a date match and a numeric token always yields a row
(the `float` call on the last token cannot fail). -/
theorem parse_generic_line_isSome (ln : List Char)
    (h1 : (dateSearch ln).isSome = true)
    (h2 : findAllAmounts (replaceMoney ln) ≠ []) :
    (parse_generic_line ln).isSome = true := by
  obtain ⟨ds, hds⟩ := Option.isSome_iff_exists.mp h1
  obtain ⟨lastTok, hlast⟩ := Option.isSome_iff_exists.mp (List.getLast?_isSome.mpr h2)
  obtain ⟨v, hv⟩ := Option.isSome_iff_exists.mp (findAllAmounts_float (getLastMem hlast))
  simp [parse_generic_line, hds, hlast, hv]

/-- Every row the generic line parser emits has a non-negative
amount (it is stored as `abs(amount)`). -/
theorem parse_generic_line_amount {ln : List Char} {row : Row}
    (h : parse_generic_line ln = some row) : 0 ≤ row.Amount := by
  simp only [parse_generic_line] at h
  cases hd : dateSearch ln with
  | none => simp [hd] at h
  | some ds =>
    simp only [hd] at h
    cases hl : (findAllAmounts (replaceMoney ln)).getLast? with
    | none => simp [hl] at h
    | some lastTok =>
      simp only [hl] at h
      cases hf : floatOfToken lastTok with
      | none => simp [hf] at h
      | some v =>
        simp only [hf] at h
        rw [(Option.some.inj h).symm]
        exact abs_nonneg v

/-- A block with a date match and a numeric token always yields a row
(if the right-to-left scan finds nothing non-zero, the balance token is
reused and its `float` call cannot fail). -/
theorem parse_kotak_block_isSome (blk : List Char)
    (h1 : (dateSearch blk).isSome = true) (h2 : kotakNums blk ≠ []) :
    (parse_kotak_block blk).isSome = true := by
  obtain ⟨ds, hds⟩ := Option.isSome_iff_exists.mp h1
  obtain ⟨bal, hbal⟩ := Option.isSome_iff_exists.mp (List.getLast?_isSome.mpr h2)
  have hmem : bal ∈ findAllAmounts (replaceMoney (kotakOne blk)) := by
    have hm := getLastMem hbal
    simp only [kotakNums] at hm
    exact (List.mem_filter.mp hm).1
  obtain ⟨bv, hbv⟩ := Option.isSome_iff_exists.mp (findAllAmounts_float hmem)
  cases hcf : codeFirstNonzero (kotakNums blk).dropLast.reverse with
  | some v => simp [parse_kotak_block, hds, hbal, hcf]
  | none => simp [parse_kotak_block, hds, hbal, hcf, hbv]

/-- Every row the kotak block parser emits has a non-negative
amount. -/
theorem parse_kotak_block_amount {blk : List Char} {row : Row}
    (h : parse_kotak_block blk = some row) : 0 ≤ row.Amount := by
  simp only [parse_kotak_block] at h
  cases hd : dateSearch blk with
  | none => simp [hd] at h
  | some ds =>
    simp only [hd] at h
    cases hl : (kotakNums blk).getLast? with
    | none => simp [hl] at h
    | some bal =>
      simp only [hl] at h
      cases hcf : codeFirstNonzero (kotakNums blk).dropLast.reverse with
      | some v =>
        simp only [hcf] at h
        rw [(Option.some.inj h).symm]
        exact abs_nonneg v
      | none =>
        simp only [hcf] at h
        cases hfb : floatOfToken bal with
        | none => simp [hfb] at h
        | some amt =>
          simp only [hfb] at h
          rw [(Option.some.inj h).symm]
          exact abs_nonneg amt

/-- The source's right-to-left loop equals `find?` of the non-zero
predicate over the parseable values. -/
theorem codeFirstNonzero_eq_find :
    ∀ l : List (List Char), codeFirstNonzero l =
      (l.filterMap floatOfToken).find? fun v => decide (v ≠ 0) := by
  intro l
  induction l with
  | nil => rfl
  | cons tok rest ih =>
    cases hf : floatOfToken tok with
    | none => simp only [codeFirstNonzero, hf, List.filterMap_cons]; exact ih
    | some v =>
      simp only [codeFirstNonzero, hf, List.filterMap_cons, List.find?_cons]
      by_cases hv : v = 0
      · subst hv
        simpa using ih
      · have h1 : (0 : ℚ) < |v| := abs_pos.mpr hv
        simp [h1, hv]

/-! ## Claim C3: tabular amount selection -/

/-- Claim C3: for every block the kotak parser turns into a row, the
last numeric token plays the balance role and the amount is the first
non-zero parseable value among the remaining tokens scanned right to
left — with the balance token's own value reused when no such value
exists (the row stores the magnitude). -/
theorem c3_kotak_amount_selection (blk : List Char) (row : Row)
    (h : parse_kotak_block blk = some row) :
    ∃ v, specAmountSelection (kotakNums blk) = some v ∧ row.Amount = |v| := by
  simp only [parse_kotak_block] at h
  cases hd : dateSearch blk with
  | none => simp [hd] at h
  | some ds =>
    simp only [hd] at h
    cases hl : (kotakNums blk).getLast? with
    | none => simp [hl] at h
    | some bal =>
      simp only [hl] at h
      cases hcf : codeFirstNonzero (kotakNums blk).dropLast.reverse with
      | some v =>
        simp only [hcf] at h
        refine ⟨v, ?_, (congrArg Row.Amount (Option.some.inj h)).symm⟩
        unfold specAmountSelection
        rw [← codeFirstNonzero_eq_find, hcf]
      | none =>
        simp only [hcf] at h
        cases hfb : floatOfToken bal with
        | none => simp [hfb] at h
        | some amt =>
          simp only [hfb] at h
          refine ⟨amt, ?_, (congrArg Row.Amount (Option.some.inj h)).symm⟩
          unfold specAmountSelection
          rw [← codeFirstNonzero_eq_find, hcf, hl]
          simp [hfb]

/-- Claim C3 witness: a concrete block on which the selection theorem
applies; the token list is 01, 01, 202, 4, 500, 1,000.00, the balance
token is 1,000.00 and the rightmost non-zero remaining value, 500,
becomes the amount. -/
theorem c3_witness :
    parse_kotak_block "01/01/2024 UPI 500 1,000.00".toList =
      some { Date := DateOrStr.date ⟨2024, 1, 1⟩, Description := "UPI 500",
             Amount := 500, Typ := "Debit" } ∧
    (∃ v, specAmountSelection (kotakNums "01/01/2024 UPI 500 1,000.00".toList) = some v ∧
      ({ Date := DateOrStr.date ⟨2024, 1, 1⟩, Description := "UPI 500",
         Amount := 500, Typ := "Debit" } : Row).Amount = |v|) :=
  ⟨by decide, c3_kotak_amount_selection _ _ (by decide)⟩

/-! ## Claim C4: debit keywords override credit keywords -/

/-- Claim C4: if a block's text contains both a credit/deposit keyword
and a debit/withdraw keyword, the resulting transaction is typed
Debit (the debit keyword check runs second and overrides). -/
theorem c4_debit_overrides (blk : List Char) (row : Row)
    (h : parse_kotak_block blk = some row)
    (_hc : hasCreditKw (pyLower (kotakOne blk)) = true)
    (hd : hasDebitKw (pyLower (kotakOne blk)) = true) :
    row.Typ = "Debit" := by
  simp only [parse_kotak_block] at h
  cases h1 : dateSearch blk with
  | none => simp [h1] at h
  | some ds =>
    simp only [h1] at h
    cases h2 : (kotakNums blk).getLast? with
    | none => simp [h2] at h
    | some bal =>
      simp only [h2] at h
      cases h3 : codeFirstNonzero (kotakNums blk).dropLast.reverse with
      | some v =>
        simp only [h3] at h
        rw [(Option.some.inj h).symm]
        simp [hd]
      | none =>
        simp only [h3] at h
        cases h4 : floatOfToken bal with
        | none => simp [h4] at h
        | some amt =>
          simp only [h4] at h
          rw [(Option.some.inj h).symm]
          simp [hd]

/-- Claim C4 witness: a concrete block containing both "deposit" and
"withdraw", typed Debit. -/
theorem c4_witness :
    parse_kotak_block "01/01/2024 deposit then withdraw 500 1000".toList =
      some { Date := DateOrStr.date ⟨2024, 1, 1⟩,
             Description := "deposit then withdraw 500",
             Amount := 100, Typ := "Debit" } ∧
    ({ Date := DateOrStr.date ⟨2024, 1, 1⟩,
       Description := "deposit then withdraw 500",
       Amount := 100, Typ := "Debit" } : Row).Typ = "Debit" :=
  ⟨by decide,
   c4_debit_overrides "01/01/2024 deposit then withdraw 500 1000".toList
     { Date := DateOrStr.date ⟨2024, 1, 1⟩,
       Description := "deposit then withdraw 500",
       Amount := 100, Typ := "Debit" }
     (by decide) (by decide) (by decide)⟩

/-! ## Claim C9: amounts are non-negative magnitudes -/

/-- Claim C9: every transaction either parser produces has amount at
least 0 (the sign lives in the type field); and a line with a date
token and at least one numeric token always yields exactly one row
from the generic parser, with non-negative amount. -/
theorem c9_amount_invariant (text : String) (ln : List Char) :
    (∀ row ∈ (parse_text_generic text).rows, 0 ≤ row.Amount) ∧
    (∀ row ∈ (parse_kotak_statement text).rows, 0 ≤ row.Amount) ∧
    ((dateSearch ln).isSome = true → findAllAmounts (replaceMoney ln) ≠ [] →
      (parse_generic_line ln).isSome = true) ∧
    (∀ row, parse_generic_line ln = some row → 0 ≤ row.Amount) := by
  refine ⟨?_, ?_, parse_generic_line_isSome ln, fun row h => parse_generic_line_amount h⟩
  · intro row hr
    simp only [parse_text_generic] at hr
    obtain ⟨l, _, hl⟩ := List.mem_filterMap.mp hr
    exact parse_generic_line_amount hl
  · intro row hr
    simp only [parse_kotak_statement] at hr
    obtain ⟨b, _, hb⟩ := List.mem_filterMap.mp hr
    exact parse_kotak_block_amount hb

/-- Claim C9 witness: a concrete qualifying line yields a row. -/
theorem c9_witness :
    (parse_generic_line "02/02/2024 SALARY CREDIT 100".toList).isSome = true :=
  (c9_amount_invariant "" "02/02/2024 SALARY CREDIT 100".toList).2.2.1
    (by decide) (by decide)

/-! ## Claim C7 (amended): keyword lines are parsed like any other -/

/-- Claim C7 (amended): neither parser excludes lines or blocks
containing the header/summary keywords "opening" or "closing"; such a
line with a date token and a numeric token produces a transaction
exactly like any other (see the counterexample for a concrete
instance). -/
theorem c7_amended_no_exclusion (ln blk : List Char) :
    ((containsSub (pyLower ln) "opening".toList ||
        containsSub (pyLower ln) "closing".toList) = true →
      (dateSearch ln).isSome = true → findAllAmounts (replaceMoney ln) ≠ [] →
      (parse_generic_line ln).isSome = true) ∧
    ((containsSub (pyLower blk) "opening".toList ||
        containsSub (pyLower blk) "closing".toList) = true →
      (dateSearch blk).isSome = true → kotakNums blk ≠ [] →
      (parse_kotak_block blk).isSome = true) :=
  ⟨fun _ h1 h2 => parse_generic_line_isSome ln h1 h2,
   fun _ h1 h2 => parse_kotak_block_isSome blk h1 h2⟩

/-- Claim C7 witness: the "OPENING BALANCE" line and a "CLOSING
BALANCE" block both produce transactions. -/
theorem c7_amended_witness :
    (parse_generic_line c7line.toList).isSome = true ∧
    (parse_kotak_block "02/01/2024 CLOSING BALANCE 500".toList).isSome = true :=
  ⟨(c7_amended_no_exclusion c7line.toList []).1 (by decide) (by decide) (by decide),
   (c7_amended_no_exclusion [] "02/01/2024 CLOSING BALANCE 500".toList).2
     (by decide) (by decide) (by decide)⟩

/-! ## Claim C10: output schema -/

/-- Claim C10: for every input, both parsers return a table with
exactly the columns Date, Description, Amount, Type in that order; no
Balance or Category column is present, and the empty frame returned by
`process_pdf_to_df` when extraction yields no text has the same
schema. -/
theorem c10_parser_schema (text : String) (d : Diag) (pw : Option String) :
    (parse_text_generic text).columns = ["Date", "Description", "Amount", "Type"] ∧
    (parse_kotak_statement text).columns = ["Date", "Description", "Amount", "Type"] ∧
    (process_pdf_to_df ("", d) pw).1.1.columns = ["Date", "Description", "Amount", "Type"] ∧
    "Balance" ∉ (parse_text_generic text).columns ∧
    "Category" ∉ (parse_text_generic text).columns ∧
    "Balance" ∉ (parse_kotak_statement text).columns ∧
    "Category" ∉ (parse_kotak_statement text).columns :=
  ⟨rfl, rfl, rfl,
    (show "Balance" ∉ ["Date", "Description", "Amount", "Type"] by decide),
    (show "Category" ∉ ["Date", "Description", "Amount", "Type"] by decide),
    (show "Balance" ∉ ["Date", "Description", "Amount", "Type"] by decide),
    (show "Category" ∉ ["Date", "Description", "Amount", "Type"] by decide)⟩

/-! ## Claim C5: the OCR stage gate (code bug) -/

/-- Claim C5 (code bug): for a document where both text-layer engines
succeed but extract only empty text, with OCR modules available and
OCR not forced, the OCR stage does NOT run (the gate tests for the
substring "no text" in the diagnostics note, which no pre-OCR path
writes), even though forcing OCR on the same document would extract
text.  This contradicts the claim and the function's own docstring. -/
theorem c5_ocr_gate_skips_unforced :
    (extract_text env0 false).1 = "" ∧
    "ocr" ∉ (extract_text env0 false).2.2 ∧
    (extract_text env0 false).2.2 = ["pdfplumber", "pymupdf"] ∧
    (extract_text env0 true).2.2 = ["pdfplumber", "pymupdf", "ocr"] ∧
    (extract_text env0 true).1 = "OCR TEXT" := by decide

/-! ## Claim C6: password clearing -/

/-- Claim C6 counterexample: on the early-return path (extraction
yields empty text) the local password binding still holds the secret
at the moment of return; it is not cleared. -/
theorem c6_counterexample :
    (process_pdf_to_df ("", ⟨"none", 0, "no text"⟩) (some "secret")).2 = some "secret" ∧
    some "secret" ≠ (none : Option String) := by decide

/-- Claim C6 (amended): the local password binding is rebound to None
only on the successful-parse exit path, i.e. when the extracted text
is non-blank; the empty-text early return leaves it untouched (see the
counterexample), and rebinding a parameter never clears the caller's
own copy. -/
theorem c6_amended_cleared_on_parse_path (ext : String × Diag) (pw : Option String)
    (h : (pyStrip ext.1.toList).isEmpty = false) :
    (process_pdf_to_df ext pw).2 = none := by
  simp only [String.toList] at h
  have h2 : ¬ pyStrip ext.1.data = [] := by
    intro he
    rw [he] at h
    simp at h
  simp [process_pdf_to_df, h2]

/-- Claim C6 witness: a concrete non-empty extraction on which the
amended theorem applies. -/
theorem c6_amended_witness :
    (process_pdf_to_df ("01/01/2024 A 5", ⟨"pdfplumber", 1, ""⟩) (some "secret")).2 = none :=
  c6_amended_cleared_on_parse_path ("01/01/2024 A 5", ⟨"pdfplumber", 1, ""⟩)
    (some "secret") (by decide)

/-! ## Claim C2: categorizer rule priority -/

/-- Claim C2 counterexample: the description "SALARY SWIGGY" matches
both the first rule (Income / Credits) and the second rule (Food &
Drinks); the Categorizer assigns the SECOND (later) rule's category,
not the earlier one as the claim states. -/
theorem c2_counterexample :
    (CATEGORY_RULES.map fun r => ruleMatches r.1 (pyLower c2row.Description.toList)) =
      [true, true, false, false, false, false, false, false, false] ∧
    (CATEGORY_RULES.map Prod.snd).head? = some "Income / Credits" ∧
    (categorize_transactions ⟨stdCols, [c2row]⟩).rows.map Prod.snd = ["Food & Drinks"] ∧
    ("Food & Drinks" : String) ≠ "Income / Credits" := by decide

/-- Folding the overwrite loop over any rule list computes the last
matching rule's category (or the initial value when none matches). -/
theorem foldlRules_eq_lastMatch (low : List Char) :
    ∀ (rules : List (List (List (List Char)) × String)) (init : String),
    rules.foldl (fun acc r => if ruleMatches r.1 low then r.2 else acc) init =
      (((rules.filter fun r => ruleMatches r.1 low).getLast?).map Prod.snd).getD init := by
  intro rules
  induction rules with
  | nil => intro init; rfl
  | cons r rs ih =>
    intro init
    simp only [List.foldl_cons, List.filter_cons]
    by_cases h : ruleMatches r.1 low = true
    · rw [if_pos h, ih, if_pos h]
      cases hfl : rs.filter (fun r => ruleMatches r.1 low) with
      | nil => simp
      | cons x xs =>
        obtain ⟨v, hv⟩ := Option.isSome_iff_exists.mp
          (List.getLast?_isSome.mpr (List.cons_ne_nil x xs))
        rw [List.getLast?_cons_cons, hv]
        simp
    · rw [if_neg h, ih, if_neg h]

/-- Claim C2 (amended): the Categorizer scans the ordered rule table
top-to-bottom against the lowercased (case-insensitive) description
and each matching rule OVERWRITES the category, so the LAST matching
pattern's category is assigned; if no pattern matches, "Other" is
assigned. -/
theorem c2_amended_last_match_wins (desc : String) :
    assignCategory desc = lastMatchCategory desc := by
  unfold assignCategory lastMatchCategory matchingRules
  exact foldlRules_eq_lastMatch (pyLower desc.toList) CATEGORY_RULES "Other"

/-! ## Claim C1: the end-to-end example line -/

/-- Claim C1 counterexample: on the example line the detected format is
generic and the single produced transaction has amount 0 (the numeric
tokenizer splits "45000" into "450","00" and "95000" into "950","00",
and the generic parser takes the LAST token, "00"), not 45000; and the
parser output has no Balance column at all. -/
theorem c1_counterexample :
    (pipelineOnText c1line).rows.map Row.Amount = [0] ∧
    ((0 : ℚ) ≠ 45000) ∧
    "Balance" ∉ (pipelineOnText c1line).columns := by decide

/-- Claim C1 (amended): for the example line the pipeline (format
detection then parsing) detects the generic layout and produces exactly
one Transaction with date 2025-09-02, description containing "SALARY
CREDIT - ACME CORP", type Credit — but amount 0.0 (the last numeric
token of the tokenisation, "00") rather than 45000.0, and no balance
field (the generic parser emits only Date, Description, Amount,
Type). -/
theorem c1_amended_pipeline_result :
    detect_bank c1line = "generic" ∧
    pipelineOnText c1line = ⟨["Date", "Description", "Amount", "Type"], [c1row]⟩ ∧
    containsSub c1row.Description.toList "SALARY CREDIT - ACME CORP".toList = true := by
  decide

/-! ## Claim C7: header/summary lines are not excluded -/

/-- Claim C7 counterexample: the line "01/01/2024 OPENING BALANCE 1000"
contains the header keyword "opening", yet the generic parser produces
a Transaction from it — no keyword exclusion exists in either
parser. -/
theorem c7_counterexample :
    containsSub (pyLower c7line.toList) "opening".toList = true ∧
    (parse_text_generic c7line).rows.length = 1 := by decide

/-! ## Lemmas: parsing a canonical `%d/%m/%Y` rendering -/

theorem dChar_digit : ∀ n : Nat, isDigitC (dChar n) = true := by
  intro n
  unfold dChar
  split <;> decide

theorem dChar_val {n : Nat} (h : n < 10) : digitVal (dChar n) = n := by
  interval_cases n <;> decide

/-- The `%d` alternation reads a zero-padded valid day first. -/
theorem dayAlts_pad2 (d : Nat) (rest : List Char) (h1 : 1 ≤ d) (h2 : d ≤ 31) :
    ∃ tl, dayAlts (pad2 d ++ rest) = (d, rest) :: tl := by
  interval_cases d <;> exact ⟨_, rfl⟩

/-- The `%m` alternation reads a zero-padded valid month first. -/
theorem monthAlts_pad2 (m : Nat) (rest : List Char) (h1 : 1 ≤ m) (h2 : m ≤ 12) :
    ∃ tl, monthAlts (pad2 m ++ rest) = (m, rest) :: tl := by
  interval_cases m <;> exact ⟨_, rfl⟩

theorem takeExact4_digits (c1 c2 c3 c4 : Char) (rest : List Char)
    (h1 : isDigitC c1 = true) (h2 : isDigitC c2 = true)
    (h3 : isDigitC c3 = true) (h4 : isDigitC c4 = true) :
    takeExactDigits 4 (c1 :: c2 :: c3 :: c4 :: rest) = some ([c1, c2, c3, c4], rest) := by
  simp [takeExactDigits, h1, h2, h3, h4]

/-- `%Y` reads back the four-digit rendering of the year. -/
theorem parseY4v_pad4 (y : Nat) (h1 : 1000 ≤ y) (h2 : y ≤ 9999) :
    parseY4v (pad4 y) = some (y, []) := by
  unfold parseY4v pad4
  rw [takeExact4_digits _ _ _ _ [] (dChar_digit _) (dChar_digit _) (dChar_digit _)
    (dChar_digit _)]
  simp only [digitsToNat, List.foldl_cons, List.foldl_nil, Option.some.injEq,
    Prod.mk.injEq, and_true]
  rw [dChar_val (show y / 1000 % 10 < 10 by omega),
    dChar_val (show y / 100 % 10 < 10 by omega),
    dChar_val (show y / 10 % 10 < 10 by omega),
    dChar_val (show y % 10 < 10 by omega)]
  omega

theorem runAlts_head {v : Nat} {rest : List Char} {tl : List (Nat × List Char)}
    {k : Nat → List Char → Option DateT} {x : DateT} (h : k v rest = some x) :
    runAlts ((v, rest) :: tl) k = some x := by
  simp [runAlts, h]

theorem daysInMonth_le (y m : Nat) : daysInMonth y m ≤ 31 := by
  unfold daysInMonth
  split
  · split <;> omega
  · split <;> omega

theorem mkDate_valid (y m d : Nat) (hm1 : 1 ≤ m) (hm2 : m ≤ 12) (hd1 : 1 ≤ d)
    (hd2 : d ≤ daysInMonth y m) (hy1 : 1 ≤ y) (hy2 : y ≤ 9999) :
    mkDate y m d = some ⟨y, m, d⟩ := by
  unfold mkDate
  rw [if_pos]
  exact ⟨hy1, hy2, hm1, hm2, hd1, hd2⟩

/-- The first-listed format `%d/%m/%Y` parses its own canonical
rendering back to the same date. -/
theorem fmt_dmY_render (y m d : Nat) (hm1 : 1 ≤ m) (hm2 : m ≤ 12) (hd1 : 1 ≤ d)
    (hd2 : d ≤ daysInMonth y m) (hy1 : 1000 ≤ y) (hy2 : y ≤ 9999) :
    fmt_dmY '/' (pad2 d ++ '/' :: (pad2 m ++ '/' :: pad4 y)) = some ⟨y, m, d⟩ := by
  have hd31 : d ≤ 31 := hd2.trans (daysInMonth_le y m)
  obtain ⟨tld, hday⟩ := dayAlts_pad2 d ('/' :: (pad2 m ++ '/' :: pad4 y)) hd1 hd31
  obtain ⟨tlm, hmon⟩ := monthAlts_pad2 m ('/' :: pad4 y) hm1 hm2
  unfold fmt_dmY
  rw [hday]
  apply runAlts_head
  simp only [if_pos rfl, if_true, ite_true]
  rw [hmon]
  apply runAlts_head
  simp only [if_pos rfl, if_true, ite_true]
  rw [parseY4v_pad4 y hy1 hy2]
  simp only [List.isEmpty_nil, if_true]
  exact mkDate_valid y m d hm1 hm2 hd1 hd2 (by omega) hy2

/-! ## Claim C8: the date round-trip -/

/-- Claim C8 (amended): the round-trip holds for the helper's
first-listed format `%d/%m/%Y` on zero-padded renderings with four-digit
years: parsing the rendering recovers the date, hence re-rendering in
that same format recovers the string.  It does NOT hold for every
supported format: a string in the later-listed `%m/%d/%Y` format is
captured by the `%d/%m/%Y` rule first (see the counterexample). -/
theorem c8_amended_first_format_roundtrip (y m d : Nat) (hm1 : 1 ≤ m) (hm2 : m ≤ 12)
    (hd1 : 1 ≤ d) (hd2 : d ≤ daysInMonth y m) (hy1 : 1000 ≤ y) (hy2 : y ≤ 9999) :
    safe_date (renderDMY ⟨y, m, d⟩) = DateOrStr.date ⟨y, m, d⟩ ∧
    renderDMY ⟨y, m, d⟩ = renderDMY ⟨y, m, d⟩ := by
  refine ⟨?_, rfl⟩
  have hfmt := fmt_dmY_render y m d hm1 hm2 hd1 hd2 hy1 hy2
  have hlist : (renderDMY ⟨y, m, d⟩).toList = pad2 d ++ '/' :: (pad2 m ++ '/' :: pad4 y) :=
    rfl
  unfold safe_date
  rw [hlist]
  simp only [strptimeFmts, firstParse, hfmt]

/-- Claim C8 witness: the amended round-trip at 2025-09-02. -/
theorem c8_amended_witness :
    safe_date (renderDMY ⟨2025, 9, 2⟩) = DateOrStr.date ⟨2025, 9, 2⟩ ∧
    renderDMY ⟨2025, 9, 2⟩ = renderDMY ⟨2025, 9, 2⟩ :=
  c8_amended_first_format_roundtrip 2025 9 2 (by decide) (by decide) (by decide)
    (by decide) (by decide) (by decide)

/-- Claim C8 counterexample: "09/02/2025" is the `%m/%d/%Y` rendering
of 2025-09-02 (a supported format), but `safe_date` parses it with the
earlier-listed `%d/%m/%Y` as 2025-02-09, so re-rendering in `%m/%d/%Y`
yields "02/09/2025", not the original string. -/
theorem c8_counterexample :
    renderMDY ⟨2025, 9, 2⟩ = "09/02/2025" ∧
    safe_date "09/02/2025" = DateOrStr.date ⟨2025, 2, 9⟩ ∧
    renderMDY ⟨2025, 2, 9⟩ = "02/09/2025" ∧
    ("02/09/2025" : String) ≠ "09/02/2025" := by decide

end FinGenie
